import Mathlib

/-
Verification of the Binance integration layer (order book reconciliation,
order gateway, request signing) against its natural-language specification.

The C++ sources are shallowly embedded:
  * `std::map<Price, Qty>` book sides become their abstract content,
    functions `Price → Option Qty` (the key order only matters for
    iteration, which the verified claims do not touch);
  * `uint64_t` update identifiers become `Nat` values, with the one
    addition the code performs (`last_update_id_ + 1`) taken modulo
    `2 ^ 64` exactly as the machine does;
  * C++ `double` decimal values become `ℚ` (exact at every value the
    proofs evaluate);
  * fallible operations (JSON field access, `std::stod`) return `Except`,
    mirroring the `try`/`catch` structure of the source.
-/

namespace Trading

abbrev Price := Int
abbrev Qty := Nat

/-- C++ `struct PriceLevel` from binance_order_book.h: a price together
with an aggregate quantity. -/
structure PriceLevel where
  price : Price
  quantity : Qty
deriving DecidableEq, Repr

/-- Abstract content of one book side, `std::map<Common::Price, Common::Qty>`:
a partial map from price to aggregate quantity. -/
def BookSide := Price → Option Qty

/-- The cleared book side (`bids_.clear()` / `asks_.clear()`). -/
def emptySide : BookSide := fun _ => none

/-- Assignment `book_side[level.price] = level.quantity`: insert or overwrite a level. -/
def setLevel (side : BookSide) (p : Price) (q : Qty) : BookSide :=
  fun x => if x = p then some q else side x

/-- Erasure `book_side.erase(level.price)`: remove a level. -/
def eraseLevel (side : BookSide) (p : Price) : BookSide :=
  fun x => if x = p then none else side x

/-- Source function `BinanceOrderBook::processPriceLevelUpdates` (binance_order_book.cpp,
lines 188-212): for each update, a positive quantity sets the level and a
zero quantity erases it. -/
def processPriceLevelUpdates : BookSide → List PriceLevel → BookSide
  | side, [] => side
  | side, l :: rest =>
      processPriceLevelUpdates
        (if 0 < l.quantity then setLevel side l.price l.quantity
         else eraseLevel side l.price) rest

/-- The loop body of `BinanceOrderBook::applySnapshot` over one side: the
side was cleared first, then every level with positive quantity is
inserted and zero-quantity levels are skipped. -/
def applySnapshotSide : BookSide → List PriceLevel → BookSide
  | side, [] => side
  | side, l :: rest =>
      applySnapshotSide
        (if 0 < l.quantity then setLevel side l.price l.quantity else side) rest

/-- Number of values of a `uint64_t`. -/
def U64SIZE : Nat := 2 ^ 64

/-- The mutable state of `BinanceOrderBook` relevant to snapshot and
depth-update application: both sides, `last_update_id_`, `is_valid_`,
`needs_refresh_`. -/
structure BookState where
  bids : BookSide
  asks : BookSide
  lastUpdateId : Nat
  isValid : Bool
  needsRefresh : Bool

/-- Source function `BinanceOrderBook::applySnapshot` (binance_order_book.cpp, lines 11-46):
clears both sides, inserts every positive-quantity level, then sets
`last_update_id_`, `is_valid_ = true`, `needs_refresh_ = false` and
returns true. -/
def applySnapshot (b : BookState) (lastUpdateId : Nat)
    (bids asks : List PriceLevel) : Bool × BookState :=
  (true,
    { bids := applySnapshotSide emptySide bids
      asks := applySnapshotSide emptySide asks
      lastUpdateId := lastUpdateId
      isValid := true
      needsRefresh := false })

/-- Source function `BinanceOrderBook::applyDepthUpdate` (binance_order_book.cpp, lines
48-96).  The three gates run in order; `last_update_id_ + 1` is `uint64_t`
addition, hence the `% U64SIZE`.  On acceptance both sides are updated and
`last_update_id_` becomes the final update id. -/
def applyDepthUpdate (b : BookState) (firstUpdateId finalUpdateId : Nat)
    (bids asks : List PriceLevel) : Bool × BookState :=
  if b.isValid = false then
    (false, { b with needsRefresh := true })
  else if finalUpdateId < (b.lastUpdateId + 1) % U64SIZE then
    (false, b)
  else if (b.lastUpdateId + 1) % U64SIZE < firstUpdateId then
    (false, { b with needsRefresh := true })
  else
    (true,
      { b with
        bids := processPriceLevelUpdates b.bids bids
        asks := processPriceLevelUpdates b.asks asks
        lastUpdateId := finalUpdateId })

/-- The last update in a list that concerns price `p`, if any (later
entries of the update vector win because the loop overwrites). -/
def lastUpdateFor (updates : List PriceLevel) (p : Price) : Option PriceLevel :=
  updates.reverse.find? (fun l => decide (l.price = p))

/-- Resulting level at price `p` after a depth-update vector: the last
update for `p` wins (positive quantity sets, zero removes); prices not
mentioned keep their previous quantity. -/
def levelAfterUpdates (side : BookSide) (updates : List PriceLevel) (p : Price) :
    Option Qty :=
  match lastUpdateFor updates p with
  | some l => if 0 < l.quantity then some l.quantity else none
  | none => side p

/-- Resulting level at price `p` after applying a snapshot: the last
snapshot level for `p` with positive quantity wins; zero-quantity levels
are ignored, and prices not mentioned are absent (the book was cleared). -/
def snapshotLevelFor (levels : List PriceLevel) (p : Price) : Option Qty :=
  match levels.reverse.find? (fun l => decide (l.price = p) && decide (0 < l.quantity)) with
  | some l => some l.quantity
  | none => none

lemma find?_append_singleton {α : Type} (f : α → Bool) (a : α) :
    ∀ xs : List α, (xs ++ [a]).find? f =
      match xs.find? f with
      | some y => some y
      | none => if f a then some a else none := by
  intro xs
  induction xs with
  | nil => cases hfa : f a <;> simp [List.find?, hfa]
  | cons x rest ih =>
      cases hfx : f x <;> simp [List.find?, hfx, ih]

lemma lastUpdateFor_cons (l : PriceLevel) (rest : List PriceLevel) (p : Price) :
    lastUpdateFor (l :: rest) p =
      match lastUpdateFor rest p with
      | some y => some y
      | none => if l.price = p then some l else none := by
  unfold lastUpdateFor
  rw [List.reverse_cons, find?_append_singleton]
  cases h : List.find? (fun l => decide (l.price = p)) rest.reverse with
  | some y => rfl
  | none => by_cases hp : l.price = p <;> simp [hp]

lemma processPriceLevelUpdates_lookup :
    ∀ (updates : List PriceLevel) (side : BookSide) (p : Price),
      processPriceLevelUpdates side updates p = levelAfterUpdates side updates p := by
  intro updates
  induction updates with
  | nil =>
      intro side p
      simp [processPriceLevelUpdates, levelAfterUpdates, lastUpdateFor, List.find?]
  | cons l rest ih =>
      intro side p
      rw [processPriceLevelUpdates, ih]
      unfold levelAfterUpdates
      rw [lastUpdateFor_cons]
      cases h : lastUpdateFor rest p with
      | some y => simp
      | none =>
          by_cases hp : l.price = p
          · subst hp
            by_cases hq : 0 < l.quantity <;> simp [hq, setLevel, eraseLevel]
          · have hp2 : ¬ p = l.price := fun h2 => hp h2.symm
            by_cases hq : 0 < l.quantity <;> simp [hp, hp2, hq, setLevel, eraseLevel]

lemma applySnapshotSide_lookup :
    ∀ (levels : List PriceLevel) (side : BookSide) (p : Price),
      applySnapshotSide side levels p =
        match levels.reverse.find? (fun l => decide (l.price = p) && decide (0 < l.quantity)) with
        | some l => some l.quantity
        | none => side p := by
  intro levels
  induction levels with
  | nil =>
      intro side p
      simp [applySnapshotSide, List.find?]
  | cons l rest ih =>
      intro side p
      rw [applySnapshotSide, ih, List.reverse_cons, find?_append_singleton]
      cases h : rest.reverse.find? (fun l => decide (l.price = p) && decide (0 < l.quantity)) with
      | some y => simp
      | none =>
          by_cases hp : l.price = p
          · subst hp
            by_cases hq : 0 < l.quantity <;> simp [hq, setLevel]
          · have hp2 : ¬ p = l.price := fun h2 => hp h2.symm
            by_cases hq : 0 < l.quantity <;> simp [hp, hp2, hq, setLevel]

/-- Query string built by the loop of `BinanceAuthenticator::signRequest`:
`k=v` pairs joined by `&`, in the iteration order of the parameter map
(the `std::map` iterates in ascending key order; callers pass the list in
that order). -/
def buildQueryString (params : List (String × String)) : String :=
  params.foldl
    (fun acc kv => (if acc = "" then acc else acc ++ "&") ++ kv.1 ++ "=" ++ kv.2) ""

/-- Query string of `signRequest` after the timestamp step: when
`with_timestamp` is set (its default), `timestamp=<ms>` is appended
unconditionally; `nowMs` is the decimal rendering of the millisecond
clock that the stream insertion produces. -/
def canonicalQuery (params : List (String × String)) (withTimestamp : Bool)
    (nowMs : String) : String :=
  let q := buildQueryString params
  if withTimestamp then (if q = "" then q else q ++ "&") ++ "timestamp=" ++ nowMs
  else q

/-- One hex digit as produced by `std::hex` on an iostream: lowercase. -/
def hexDigitChar (n : Nat) : Char :=
  if n < 10 then Char.ofNat (48 + n) else Char.ofNat (87 + n)

/-- One byte as printed by `signature << std::hex << std::setfill('0')
<< std::setw(2) << b` for `b < 256`: exactly two lowercase hex digits. -/
def byteToHex (b : Nat) : String :=
  String.mk [hexDigitChar (b / 16 % 16), hexDigitChar (b % 16)]

/-- The hex digest the signing loop builds from the HMAC output bytes. -/
def hexDigest (bytes : List Nat) : String :=
  String.join (bytes.map byteToHex)

/-- Source function `BinanceAuthenticator::signRequest` (lines 514-561 of the user-data
stream translation unit).  The OpenSSL `HMAC(EVP_sha256(), ...)` primitive
is outside the repository and is abstracted as `hmacSha256`, mapping key
and message to the output byte sequence.  With credentials loaded, the
query string is built, `timestamp=<ms>` is appended when `withTimestamp`
is set, the HMAC is computed over exactly that string, and
`&signature=<hex>` is appended. -/
def signRequest (hmacSha256 : String → String → List Nat) (secretKey : String)
    (credentialsLoaded : Bool) (nowMs : String)
    (parameters : List (String × String)) (withTimestamp : Bool) : String :=
  if credentialsLoaded = false then ""
  else
    let q := canonicalQuery parameters withTimestamp nowMs
    q ++ "&signature=" ++ hexDigest (hmacSha256 secretKey q)

/-- Source function `BinanceOrderGateway::getAccountBalance` (binance_order_gateway.cpp,
lines 788-797) builds a parameter map containing only its own
`timestamp=<ms1>` entry and signs it with the default
`with_timestamp = true`. -/
def getAccountBalanceSignedQuery (hmacSha256 : String → String → List Nat)
    (secretKey : String) (ms1 ms2 : String) : String :=
  signRequest hmacSha256 secretKey true ms2 [("timestamp", ms1)] true

/-- Split a character list at every ampersand, yielding the query
components. -/
def splitAmp : List Char → List (List Char)
  | [] => [[]]
  | c :: rest =>
    match splitAmp rest with
    | [] => [[c]]
    | g :: gs => if c = '&' then [] :: g :: gs else (c :: g) :: gs

/-- Number of components of a query string that are a `timestamp`
parameter. -/
def countTimestampParams (q : String) : Nat :=
  ((splitAmp q.data).filter (fun g => List.isPrefixOf ("timestamp=".data) g)).length

/-- The spec's description of the signature encoding: each HMAC output
byte rendered as two lowercase hexadecimal digits, high nibble first. -/
def specLowercaseHex (bytes : List Nat) : String :=
  String.join (bytes.map (fun b => String.mk [Nat.digitChar (b / 16), Nat.digitChar (b % 16)]))

lemma hexDigitChar_eq_digitChar (n : Nat) (h : n < 16) :
    hexDigitChar n = Nat.digitChar n := by
  interval_cases n <;> decide

lemma byteToHex_eq_spec (b : Nat) (h : b < 256) :
    byteToHex b = String.mk [Nat.digitChar (b / 16), Nat.digitChar (b % 16)] := by
  have h1 : b / 16 < 16 := Nat.div_lt_of_lt_mul h
  have h2 : b / 16 % 16 = b / 16 := Nat.mod_eq_of_lt h1
  have h3 : b % 16 < 16 := Nat.mod_lt _ (by decide)
  unfold byteToHex
  rw [h2, hexDigitChar_eq_digitChar _ h1, hexDigitChar_eq_digitChar _ h3]

lemma hexDigest_eq_spec (bytes : List Nat) (h : ∀ b ∈ bytes, b < 256) :
    hexDigest bytes = specLowercaseHex bytes := by
  unfold hexDigest specLowercaseHex
  have hmap : bytes.map byteToHex =
      bytes.map (fun b => String.mk [Nat.digitChar (b / 16), Nat.digitChar (b % 16)]) :=
    List.map_congr_left fun b hb => byteToHex_eq_spec b (h b hb)
  rw [hmap]

/-- A JSON leaf value as the user-data handler sees it; only the string
and number shapes occur in the fields the code reads. -/
inductive JsonValue where
  | jstr (s : String)
  | jnum (n : Int)
deriving DecidableEq, Repr

/-- Accessor `nlohmann::json::get<std::string>()`: returns the string, and throws a
`type_error` on any other value, here surfaced in `Except`. -/
def JsonValue.getString : JsonValue → Except String String
  | JsonValue.jstr s => Except.ok s
  | JsonValue.jnum _ => Except.error "type_error"

/-- Accumulate the value of a digit list (callers establish that every
character is a decimal digit). -/
def decDigitsGo : List Char → Nat → Nat
  | [], acc => acc
  | c :: rest, acc => decDigitsGo rest (acc * 10 + (c.toNat - 48))

/-- Model of `std::stod` on the plain `digits[.digits]` decimal literals
the exchange sends; anything else errors (the C++ call would throw). -/
def stodQ (s : String) : Except String ℚ :=
  let cs := s.data
  let ip := cs.takeWhile (fun c => c.isDigit)
  let rest := cs.dropWhile (fun c => c.isDigit)
  if ip = [] then Except.error "stod"
  else
    match rest with
    | [] => Except.ok ((decDigitsGo ip 0 : ℚ))
    | c :: frac =>
        if c = '.' ∧ frac ≠ [] ∧ frac.all (fun d => d.isDigit) then
          Except.ok ((decDigitsGo ip 0 : ℚ) + (decDigitsGo frac 0 : ℚ) / (10 : ℚ) ^ frac.length)
        else Except.error "stod"

/-- Model of the guarded `std::stoull` call: the digits prefix of the
string, or 0 when there is none (the surrounding `catch` leaves
`order_id` at its initial 0). -/
def stoullOrZero (s : String) : Nat :=
  match s.data.takeWhile (fun c => c.isDigit) with
  | [] => 0
  | ds => decDigitsGo ds 0

/-- Assignment `order_id_to_binance_id_[order_id] = binance_order_id`: insert or
overwrite in the internal-to-exchange order-ID map. -/
def insertIdMap (m : List (Nat × String)) (k : Nat) (v : String) : List (Nat × String) :=
  if m.any (fun kv => decide (kv.1 = k)) then
    m.map (fun kv => if kv.1 = k then (k, v) else kv)
  else m ++ [(k, v)]

/-- Enumeration `Common::Side`. -/
inductive Side where
  | buy
  | sell
  | invalid
deriving DecidableEq, Repr

/-- Enumeration `Exchange::ClientResponseType`, the values used by the gateway. -/
inductive ClientResponseType where
  | accepted
  | filled
  | canceled
  | cancelRejected
deriving DecidableEq, Repr

/-- The fields of `Exchange::MEClientResponse` that `processOrderUpdate`
computes (price and quantities in internal scaled integers). -/
structure MEClientResponse where
  type : ClientResponseType
  orderId : Nat
  tickerId : Nat
  side : Side
  price : Int
  execQty : Int
  leavesQty : Int
deriving DecidableEq, Repr

/-- The `executionReport` fields `processOrderUpdate` reads. -/
structure ExecReportJson where
  c : JsonValue
  i : JsonValue
  s : JsonValue
  S : JsonValue
  X : JsonValue
  p : JsonValue
  q : JsonValue
  z : JsonValue
deriving DecidableEq, Repr

/-- Body of `BinanceOrderGateway::processOrderUpdate`
(binance_order_gateway.cpp, lines 1132-1206) up to its surrounding
`try`: field extraction in source order (`i` via `get<std::string>()`),
leaves = q - z, ticker lookup, side and status mapping, `x-` prefix strip
with the inner `stoull` catch, ID-map insertion for a positive order id,
conversion to internal scaled integers, and the emitted response.
`static_cast` of the nonnegative scaled doubles is the floor. -/
def processOrderUpdateGo (getTickerIdForSymbol : String → Nat) (ev : ExecReportJson)
    (idMap : List (Nat × String)) :
    Except String (List (Nat × String) × Option MEClientResponse) := do
  let clientOrderId ← ev.c.getString
  let binanceOrderId ← ev.i.getString
  let symbol ← ev.s.getString
  let sideStr ← ev.S.getString
  let orderStatus ← ev.X.getString
  let pStr ← ev.p.getString
  let price ← stodQ pStr
  let qStr ← ev.q.getString
  let origQty ← stodQ qStr
  let zStr ← ev.z.getString
  let executedQty ← stodQ zStr
  let leavesQty := origQty - executedQty
  let tickerId := getTickerIdForSymbol symbol
  let side := if sideStr = "BUY" then Side.buy
    else if sideStr = "SELL" then Side.sell else Side.invalid
  let orderId := if clientOrderId.startsWith "x-" then stoullOrZero (clientOrderId.drop 2) else 0
  let idMap2 := if 0 < orderId then insertIdMap idMap orderId binanceOrderId else idMap
  let internalPrice := ⌊price * 10000⌋
  let internalExecQty := ⌊executedQty * 10000⌋
  let internalLeavesQty := ⌊leavesQty * 10000⌋
  let responseType :=
    if orderStatus = "NEW" ∨ orderStatus = "PARTIALLY_FILLED" then ClientResponseType.accepted
    else if orderStatus = "FILLED" then ClientResponseType.filled
    else if orderStatus = "CANCELED" ∨ orderStatus = "EXPIRED" ∨ orderStatus = "REJECTED" then
      ClientResponseType.canceled
    else ClientResponseType.accepted
  if 0 < orderId then
    return (idMap2, some
      { type := responseType
        orderId := orderId
        tickerId := tickerId
        side := side
        price := internalPrice
        execQty := internalExecQty
        leavesQty := internalLeavesQty })
  else
    return (idMap2, none)

/-- Source function `BinanceOrderGateway::processOrderUpdate` with its surrounding
`try`/`catch`: any exception is logged and swallowed, leaving the ID map
untouched and emitting no response. -/
def processOrderUpdate (getTickerIdForSymbol : String → Nat) (ev : ExecReportJson)
    (idMap : List (Nat × String)) : List (Nat × String) × Option MEClientResponse :=
  match processOrderUpdateGo getTickerIdForSymbol ev idMap with
  | Except.ok r => r
  | Except.error _ => (idMap, none)

/-- Scenario S4's execution report, with field `i` carried as a JSON
number, as Binance sends it. -/
def execReportS4 : ExecReportJson :=
  { c := JsonValue.jstr "x-42"
    i := JsonValue.jnum 987654
    s := JsonValue.jstr "BTCUSDT"
    S := JsonValue.jstr "BUY"
    X := JsonValue.jstr "FILLED"
    p := JsonValue.jstr "30000.00"
    q := JsonValue.jstr "0.001"
    z := JsonValue.jstr "0.001" }

/-- C3: on the claim's event (field `i` a JSON number), the handler's
`order_update["i"].get<std::string>()` throws a type error, the catch
swallows it, and contrary to the claim no FILLED response is emitted and
the ID map is left without the `42 -> "987654"` entry. -/
theorem claim_C3 :
    processOrderUpdateGo (fun _ => 1) execReportS4 [] = Except.error "type_error" ∧
    processOrderUpdate (fun _ => 1) execReportS4 [] = ([], none) :=
  ⟨rfl, rfl⟩

/-- Subset of a symbol's `PRICE_FILTER` as the gateway consumes it:
`tickDecimals` is the number of decimal places of `tickSize` after the
source's trailing-zero trim, `minPrice` and `maxPrice` the parsed bounds
(a `maxPrice` of zero disables the upper check, as in the code). -/
structure PriceFilter where
  tickDecimals : Nat
  minPrice : ℚ
  maxPrice : ℚ
deriving DecidableEq, Repr

/-- Decimal formatting by `std::ostringstream` under `std::fixed` with
`std::setprecision(d)`: the value rounded to `d` decimal places.  C++
`double` values are modelled as rationals; every value the proofs
evaluate is exact. -/
def formatToDecimals (x : ℚ) (d : Nat) : ℚ :=
  ((round (x * (10 : ℚ) ^ d) : ℤ) : ℚ) / (10 : ℚ) ^ d

/-- The `PRICE_FILTER` section of `BinanceOrderGateway::handleNewOrderRequest`
(binance_order_gateway.cpp, lines 170-236): `formatted_price` is produced
from `price_decimal` BEFORE the min/max comparison, and the clamp only
reassigns the local `price_decimal` variable, which is not read again.
Returns (the submitted price value, the final value of the local). -/
def priceFilterBlock (f : PriceFilter) (priceDecimal : ℚ) : ℚ × ℚ :=
  let formattedPrice := formatToDecimals priceDecimal f.tickDecimals
  let p1 := if priceDecimal < f.minPrice then f.minPrice else priceDecimal
  let p2 := if 0 < f.maxPrice ∧ f.maxPrice < p1 then f.maxPrice else p1
  (formattedPrice, p2)

/-- The numeric value submitted as the `price` parameter of
POST /api/v3/order (the `formatted_price` placed into `params`). -/
def submittedPriceParam (f : PriceFilter) (priceDecimal : ℚ) : ℚ :=
  (priceFilterBlock f priceDecimal).1

/-- C2 (amended): the submitted price is the request price formatted to
the tick-size decimal places and is NOT clamped: the clamp into
`[minPrice, maxPrice]` is applied after formatting, to a local variable
that is never used for the submitted parameter.  A price representable at
the tick decimals (in particular one exactly at `minPrice` or `maxPrice`)
is submitted unchanged; a price outside the range is submitted formatted
but unclamped. -/
theorem claim_C2 (f : PriceFilter) (price : ℚ) :
    submittedPriceParam f price = formatToDecimals price f.tickDecimals ∧
    (priceFilterBlock f price).2 =
      (if 0 < f.maxPrice ∧ f.maxPrice < (if price < f.minPrice then f.minPrice else price)
       then f.maxPrice
       else if price < f.minPrice then f.minPrice else price) ∧
    ((price * (10 : ℚ) ^ f.tickDecimals).den = 1 →
      submittedPriceParam f price = price) := by
  refine ⟨rfl, rfl, ?_⟩
  intro h
  show formatToDecimals price f.tickDecimals = price
  unfold formatToDecimals
  have hq : ((price * (10 : ℚ) ^ f.tickDecimals).num : ℚ) = price * (10 : ℚ) ^ f.tickDecimals :=
    (Rat.den_eq_one_iff _).mp h
  rw [← hq, round_intCast, hq]
  have hpow : (10 : ℚ) ^ f.tickDecimals ≠ 0 := pow_ne_zero _ (by norm_num)
  field_simp

/-- C2, witness: a price that is exact at the tick decimals is submitted
unchanged. -/
theorem claim_C2_witness :
    submittedPriceParam { tickDecimals := 0, minPrice := 10, maxPrice := 100 } 7 = 7 :=
  (claim_C2 { tickDecimals := 0, minPrice := 10, maxPrice := 100 } 7).2.2
    (by norm_num)

/-- C2, counterexample to the claim as stated: with
`PRICE_FILTER = (tick 0.01, minPrice 10, maxPrice 100)` a request price of
5 is below `minPrice`, so the claim requires the submitted price to be the
nearer bound 10; the code submits the pre-clamp formatted value 5. -/
theorem claim_C2_counterexample :
    submittedPriceParam { tickDecimals := 2, minPrice := 10, maxPrice := 100 } 5 = 5 ∧
    ¬ (10 : ℚ) ≤ 5 := by
  constructor
  · show formatToDecimals 5 2 = 5
    unfold formatToDecimals
    have h5 : (5 : ℚ) * (10 : ℚ) ^ (2 : Nat) = ((500 : ℤ) : ℚ) := by norm_num
    rw [h5, round_intCast]
    norm_num
  · norm_num

lemma buildQueryString_length_le :
    ∀ (ps : List (String × String)) (acc : String),
      acc.length ≤
        (ps.foldl
          (fun acc kv => (if acc = "" then acc else acc ++ "&") ++ kv.1 ++ "=" ++ kv.2)
          acc).length := by
  intro ps
  induction ps with
  | nil => intro acc; exact Nat.le_refl _
  | cons kv rest ih =>
      intro acc
      rw [List.foldl_cons]
      refine Nat.le_trans ?_ (ih _)
      have heq : ("=" : String).length = 1 := rfl
      by_cases h : acc = ""
      · simp [h, String.length_append]
      · simp [h, String.length_append, heq]
        omega

lemma buildQueryString_ne_empty (kv : String × String) (rest : List (String × String)) :
    buildQueryString (kv :: rest) ≠ "" := by
  intro hcontra
  have h1 : 1 ≤ (buildQueryString (kv :: rest)).length := by
    unfold buildQueryString
    rw [List.foldl_cons]
    refine Nat.le_trans ?_ (buildQueryString_length_le rest _)
    have heq : ("=" : String).length = 1 := rfl
    simp [String.length_append, heq]
    omega
  rw [hcontra] at h1
  simp at h1

/-- C4 (amended): `signRequest` appends the `timestamp=<ms>` component
whenever `with_timestamp` is set (its default), regardless of whether the
parameters already supply a `timestamp` key; since `getAccountBalance`
supplies its own `timestamp` and signs with the default, its signed query
contains two timestamp parameters, not one. -/
theorem claim_C4 (params : List (String × String)) (v nowMs : String) :
    (("timestamp", v) ∈ params →
      canonicalQuery params true nowMs =
        buildQueryString params ++ "&" ++ "timestamp=" ++ nowMs) ∧
    countTimestampParams
      (getAccountBalanceSignedQuery (fun _ _ => []) "k" "1000" "2000") = 2 := by
  constructor
  · intro hmem
    cases params with
    | nil => cases hmem
    | cons kv rest =>
        unfold canonicalQuery
        simp only [if_neg (buildQueryString_ne_empty kv rest)]
        simp
  · decide

/-- C4, witness: a parameter map that already holds `timestamp` still gets
the clock's `timestamp=<ms>` appended. -/
theorem claim_C4_witness :
    canonicalQuery [("timestamp", "1")] true "2" =
      buildQueryString [("timestamp", "1")] ++ "&" ++ "timestamp=" ++ "2" :=
  (claim_C4 [("timestamp", "1")] "1" "2").1 (by simp)

/-- C4, counterexample to the claim as stated: the claim says the signed
query of `getAccountBalance` (which supplies its own `timestamp`) contains
exactly one timestamp parameter, but it contains two. -/
theorem claim_C4_counterexample :
    countTimestampParams
      (getAccountBalanceSignedQuery (fun _ _ => []) "k" "1000" "2000") = 2 ∧
    (2 : Nat) ≠ 1 := by
  refine ⟨by decide, by decide⟩

/-- C5: with credentials loaded, the signed query returned by
`signRequest` is exactly the canonical query (timestamp component
included) followed by `&signature=` and the lowercase hexadecimal
encoding of the HMAC-SHA256 of that very query string under the secret
key. -/
theorem claim_C5 (hmacSha256 : String → String → List Nat) (secretKey : String)
    (params : List (String × String)) (withTimestamp : Bool) (nowMs : String)
    (hbytes : ∀ b ∈ hmacSha256 secretKey (canonicalQuery params withTimestamp nowMs), b < 256) :
    signRequest hmacSha256 secretKey true nowMs params withTimestamp =
      canonicalQuery params withTimestamp nowMs ++ "&signature=" ++
        specLowercaseHex (hmacSha256 secretKey (canonicalQuery params withTimestamp nowMs)) := by
  have h : ¬ (true = false) := by decide
  unfold signRequest
  rw [if_neg h]
  show canonicalQuery params withTimestamp nowMs ++ "&signature=" ++
      hexDigest (hmacSha256 secretKey (canonicalQuery params withTimestamp nowMs)) = _
  rw [hexDigest_eq_spec _ hbytes]

/-- C5, witness: a concrete two-byte digest is rendered as its lowercase
hex encoding after the exact pre-signature query. -/
theorem claim_C5_witness :
    signRequest (fun _ _ => [171, 5]) "sec" true "9" [("a", "b")] true =
      canonicalQuery [("a", "b")] true "9" ++ "&signature=" ++ specLowercaseHex [171, 5] :=
  claim_C5 (fun _ _ => [171, 5]) "sec" [("a", "b")] true "9" (by decide)

/-- C1 (amended): `applyDepthUpdate` applies its three gates in order, with
the `uint64_t` addition `last_update_id_ + 1` performed modulo `2 ^ 64`: an
invalid book sets `needs_refresh` and rejects; a final id below
`last_update_id + 1` rejects without touching the flags; a first id above
`last_update_id + 1` sets `needs_refresh` and rejects; otherwise the update
is accepted, on each side every level with positive quantity is set and
every zero-quantity level removed (later entries for the same price win),
and `last_update_id` becomes the final id.  Provided `last_update_id + 1`
does not wrap around `2 ^ 64`, an event with `u = last_update_id` is
dropped and one with `u = last_update_id + 1` and `U ≤ u` is applied. -/
theorem claim_C1 (b : BookState) (U u : Nat) (bids asks : List PriceLevel) :
    (b.isValid = false →
      applyDepthUpdate b U u bids asks = (false, { b with needsRefresh := true })) ∧
    (b.isValid = true → u < (b.lastUpdateId + 1) % U64SIZE →
      applyDepthUpdate b U u bids asks = (false, b)) ∧
    (b.isValid = true → ¬ u < (b.lastUpdateId + 1) % U64SIZE →
      (b.lastUpdateId + 1) % U64SIZE < U →
      applyDepthUpdate b U u bids asks = (false, { b with needsRefresh := true })) ∧
    (b.isValid = true → ¬ u < (b.lastUpdateId + 1) % U64SIZE →
      ¬ (b.lastUpdateId + 1) % U64SIZE < U →
      (applyDepthUpdate b U u bids asks).1 = true ∧
      (applyDepthUpdate b U u bids asks).2.lastUpdateId = u ∧
      (∀ p, (applyDepthUpdate b U u bids asks).2.bids p = levelAfterUpdates b.bids bids p) ∧
      (∀ p, (applyDepthUpdate b U u bids asks).2.asks p = levelAfterUpdates b.asks asks p)) ∧
    (b.isValid = true → b.lastUpdateId + 1 < U64SIZE → u = b.lastUpdateId →
      applyDepthUpdate b U u bids asks = (false, b)) ∧
    (b.isValid = true → b.lastUpdateId + 1 < U64SIZE → u = b.lastUpdateId + 1 → U ≤ u →
      (applyDepthUpdate b U u bids asks).1 = true) := by
  refine ⟨?_, ?_, ?_, ?_, ?_, ?_⟩
  · intro hv
    simp [applyDepthUpdate, hv]
  · intro hv hlt
    simp [applyDepthUpdate, hv, hlt]
  · intro hv hge hgap
    simp [applyDepthUpdate, hv, hge, hgap]
  · intro hv hge hok
    refine ⟨?_, ?_, ?_, ?_⟩ <;>
      simp [applyDepthUpdate, hv, hge, hok, processPriceLevelUpdates_lookup]
  · intro hv hnw hu
    subst hu
    have hmod : (b.lastUpdateId + 1) % U64SIZE = b.lastUpdateId + 1 :=
      Nat.mod_eq_of_lt hnw
    simp [applyDepthUpdate, hv, hmod, Nat.lt_succ_self]
  · intro hv hnw hu hU
    subst hu
    have hmod : (b.lastUpdateId + 1) % U64SIZE = b.lastUpdateId + 1 :=
      Nat.mod_eq_of_lt hnw
    have h1 : ¬ b.lastUpdateId + 1 < b.lastUpdateId + 1 := Nat.lt_irrefl _
    have h2 : ¬ b.lastUpdateId + 1 < U := Nat.not_lt.mpr hU
    simp [applyDepthUpdate, hv, hmod, h1, h2]

/-- C1, witness: on a valid book with `last_update_id = 100`, the in-order
event `U = u = 101` is accepted. -/
theorem claim_C1_witness :
    (applyDepthUpdate ⟨emptySide, emptySide, 100, true, false⟩ 101 101 [] []).1 = true :=
  ((claim_C1 ⟨emptySide, emptySide, 100, true, false⟩ 101 101 [] []).2.2.2.1
    rfl (by decide) (by decide)).1

/-- C1, counterexample to the claim as stated: on a valid book with
`last_update_id = 2 ^ 64 - 1` the event `U = 0`, `u = 2 ^ 64 - 1` has
`u = last_update_id`, which the claim requires to be dropped, yet the
`uint64_t` computation `last_update_id_ + 1` wraps to `0`, every gate
passes, and the update is applied. -/
theorem claim_C1_counterexample :
    (applyDepthUpdate ⟨emptySide, emptySide, U64SIZE - 1, true, false⟩
      0 (U64SIZE - 1) [] []).1 = true := by
  decide

/-- C6 (amended): provided `last_update_id + 1` does not wrap around
`2 ^ 64`, every depth update that `applyDepthUpdate` accepts strictly
increases `last_update_id`. -/
theorem claim_C6 (b : BookState) (U u : Nat) (bids asks : List PriceLevel)
    (hnowrap : b.lastUpdateId + 1 < U64SIZE)
    (hacc : (applyDepthUpdate b U u bids asks).1 = true) :
    b.lastUpdateId < (applyDepthUpdate b U u bids asks).2.lastUpdateId := by
  have hmod : (b.lastUpdateId + 1) % U64SIZE = b.lastUpdateId + 1 :=
    Nat.mod_eq_of_lt hnowrap
  by_cases hv : b.isValid = false
  · simp [applyDepthUpdate, hv] at hacc
  · by_cases h2 : u < (b.lastUpdateId + 1) % U64SIZE
    · simp [applyDepthUpdate, hv, h2] at hacc
    · by_cases h3 : (b.lastUpdateId + 1) % U64SIZE < U
      · simp [applyDepthUpdate, hv, h2, h3] at hacc
      · have hle : b.lastUpdateId + 1 ≤ u := by
          rw [hmod] at h2
          exact Nat.le_of_not_lt h2
        simp [applyDepthUpdate, hv, h2, h3]
        exact Nat.lt_of_succ_le hle

/-- C6, witness: on a valid book with `last_update_id = 0` the event
`U = u = 1` is accepted and the new `last_update_id` is larger. -/
theorem claim_C6_witness :
    0 < (applyDepthUpdate ⟨emptySide, emptySide, 0, true, false⟩ 1 1 [] []).2.lastUpdateId :=
  claim_C6 ⟨emptySide, emptySide, 0, true, false⟩ 1 1 [] [] (by decide) rfl

/-- C6, counterexample to the claim as stated: on a valid book with
`last_update_id = 2 ^ 64 - 1` the event `U = 0`, `u = 5` is accepted
(the `uint64_t` sum `last_update_id_ + 1` wraps to `0`), and the new
`last_update_id = 5` is smaller than the old one, not larger. -/
theorem claim_C6_counterexample :
    (applyDepthUpdate ⟨emptySide, emptySide, U64SIZE - 1, true, false⟩ 0 5 [] []).1 = true ∧
    (applyDepthUpdate ⟨emptySide, emptySide, U64SIZE - 1, true, false⟩ 0 5 [] []).2.lastUpdateId = 5 ∧
    ¬ U64SIZE - 1 < 5 := by
  refine ⟨by decide, by decide, by decide⟩

/-- C7: `applySnapshot` succeeds, replaces both sides with exactly the
snapshot's positive-quantity levels (zero-quantity levels are ignored),
sets `last_update_id`, `is_valid = true` and `needs_refresh = false`; and
it is idempotent: applying the same snapshot twice yields the same book
state as applying it once. -/
theorem claim_C7 (b : BookState) (lid : Nat) (bids asks : List PriceLevel) :
    (applySnapshot b lid bids asks).1 = true ∧
    (applySnapshot b lid bids asks).2.lastUpdateId = lid ∧
    (applySnapshot b lid bids asks).2.isValid = true ∧
    (applySnapshot b lid bids asks).2.needsRefresh = false ∧
    (∀ p, (applySnapshot b lid bids asks).2.bids p = snapshotLevelFor bids p) ∧
    (∀ p, (applySnapshot b lid bids asks).2.asks p = snapshotLevelFor asks p) ∧
    (applySnapshot (applySnapshot b lid bids asks).2 lid bids asks).2 =
      (applySnapshot b lid bids asks).2 := by
  refine ⟨rfl, rfl, rfl, rfl, ?_, ?_, rfl⟩
  · intro p
    show applySnapshotSide emptySide bids p = snapshotLevelFor bids p
    rw [applySnapshotSide_lookup]
    unfold snapshotLevelFor
    cases h : bids.reverse.find? (fun l => decide (l.price = p) && decide (0 < l.quantity)) with
    | some y => rfl
    | none => rfl
  · intro p
    show applySnapshotSide emptySide asks p = snapshotLevelFor asks p
    rw [applySnapshotSide_lookup]
    unfold snapshotLevelFor
    cases h : asks.reverse.find? (fun l => decide (l.price = p) && decide (0 < l.quantity)) with
    | some y => rfl
    | none => rfl

/-- Enumeration `Exchange::MarketUpdateType`. -/
inductive MarketUpdateType where
  | clear
  | add
  | modify
  | cancel
  | trade
  | invalid
deriving DecidableEq, Repr

/-- The fields of `Exchange::MEMarketUpdate` the scan loop consults. -/
structure MEMarketUpdate where
  type : MarketUpdateType
  tickerId : Nat
  orderId : Nat
  side : Side
  price : Int
  qty : Nat
  priority : Nat
deriving DecidableEq, Repr

/-- Source function `Trading::Binance::internalPriceToBinance` (binance_types.h): divide
the internal scaled price by 10000. -/
def internalPriceToBinance (p : Int) : ℚ := (p : ℚ) / 10000

/-- Modelled from the spec: the market-updates SPSC lock-free queue
(`common/lf_queue.h` is outside src/; spec section 6, Queues, specifies
`next_to_read`/`update_read_index` FIFO primitives), modelled as the list
of unread entries, oldest first; reading pops the front.  On top of it,
the scan loop of `BinanceOrderGateway::getLatestMarketPrice`
(binance_order_gateway.cpp, lines 545-567): every entry is popped and
appended to the local `saved_updates` vector, the price of the last
matching ADD/MODIFY entry for the ticker is remembered, and the loop
performs no queue writes.  Arguments: unread queue, saved vector so far,
latest price so far; `priceInvalid` is the `Common::Price_INVALID`
sentinel. -/
def getLatestMarketPriceScan (priceInvalid : Int) (tickerId : Nat) :
    List MEMarketUpdate → List MEMarketUpdate → Option ℚ →
    List MEMarketUpdate × List MEMarketUpdate × Option ℚ
  | [], saved, latest => ([], saved, latest)
  | u :: rest, saved, latest =>
      getLatestMarketPriceScan priceInvalid tickerId rest (saved ++ [u])
        (if u.tickerId = tickerId ∧ u.price ≠ priceInvalid ∧
            (u.type = MarketUpdateType.add ∨ u.type = MarketUpdateType.modify)
         then some (internalPriceToBinance u.price) else latest)

lemma getLatestMarketPriceScan_consumes (priceInvalid : Int) (tickerId : Nat) :
    ∀ (queue saved : List MEMarketUpdate) (latest : Option ℚ),
      (getLatestMarketPriceScan priceInvalid tickerId queue saved latest).1 = [] ∧
      (getLatestMarketPriceScan priceInvalid tickerId queue saved latest).2.1 = saved ++ queue := by
  intro queue
  induction queue with
  | nil =>
      intro saved latest
      exact ⟨rfl, by simp [getLatestMarketPriceScan]⟩
  | cons u rest ih =>
      intro saved latest
      rw [getLatestMarketPriceScan]
      refine ⟨(ih _ _).1, ?_⟩
      rw [(ih _ _).2]
      simp

/-- C9: the scan of `getLatestMarketPrice` consumes the entire
market-updates queue: afterwards no unread entry remains, and the scanned
entries live only in the local saved vector (the loop performs no queue
writes), so they are gone from the queue the trade engine reads. -/
theorem claim_C9 (priceInvalid : Int) (tickerId : Nat) (queue : List MEMarketUpdate) :
    (getLatestMarketPriceScan priceInvalid tickerId queue [] none).1 = [] ∧
    (getLatestMarketPriceScan priceInvalid tickerId queue [] none).2.1 = queue := by
  refine ⟨(getLatestMarketPriceScan_consumes priceInvalid tickerId queue [] none).1, ?_⟩
  rw [(getLatestMarketPriceScan_consumes priceInvalid tickerId queue [] none).2]
  simp

/-- Lookup in the internal-to-exchange order-ID map. -/
def lookupIdMap (m : List (Nat × String)) (k : Nat) : Option String :=
  (m.find? (fun kv => decide (kv.1 = k))).map Prod.snd

/-- Lookup of a key in a parameter list. -/
def lookupParam (ps : List (String × String)) (k : String) : Option String :=
  (ps.find? (fun kv => decide (kv.1 = k))).map Prod.snd

/-- Parameter map built by `BinanceOrderGateway::handleCancelOrderRequest`
(binance_order_gateway.cpp, lines 352-392): the symbol is the hard-coded
string "BTCUSDT" (the configuration mapping and the request's ticker id,
though in scope, are never consulted), and `orderId` is the mapped
exchange id or the decimal order id as fallback.  The list is in the
`std::map` iteration order of the two keys. -/
def handleCancelOrderParams (getSymbolForTickerIdCfg : Nat → String) (tickerId : Nat)
    (idMap : List (Nat × String)) (orderId : Nat) : List (String × String) :=
  let symbol := "BTCUSDT"
  let binanceOrderId :=
    match lookupIdMap idMap orderId with
    | some s => s
    | none => toString orderId
  [("orderId", binanceOrderId), ("symbol", symbol)]

/-- C10: for every CANCEL request the signed parameter map carries symbol
"BTCUSDT", whatever the ticker id, and the parameters are independent of
the configuration's ticker-to-symbol mapping. -/
theorem claim_C10 (cfg cfg2 : Nat → String) (tickerId tickerId2 : Nat)
    (idMap : List (Nat × String)) (orderId : Nat) :
    lookupParam (handleCancelOrderParams cfg tickerId idMap orderId) "symbol" =
      some "BTCUSDT" ∧
    handleCancelOrderParams cfg tickerId idMap orderId =
      handleCancelOrderParams cfg2 tickerId2 idMap orderId := by
  refine ⟨?_, rfl⟩
  unfold handleCancelOrderParams lookupParam
  simp [List.find?]

end Trading
